import Mathlib

/-!
Verification development for the OpenGL renderer options of 86Box
(src/qt/qt_opengloptions.cpp and src/qt/qt_opengloptions.hpp).

The C++ code is shallowly embedded as executable Lean definitions.
Text is modeled as `String` and, inside the two pattern scans, as its
list of characters: the two regular expressions of addShader are
modeled at character level, where the PCRE class backslash-s also
matches the newline, so token separators can cross line boundaries
exactly as they do in the program.  The external collaborators
of the core (file system, the Qt JSON parser, the GL shader compiler,
attribute and uniform location queries of a linked program) are modeled
as an explicit environment of pure functions, so that concrete
environments can be instantiated and evaluated.  Floating point values
are only carried, never computed with, so they are represented by `Rat`.
-/

/-! ## Character classes and text joining -/

/-- Whitespace characters of the PCRE class backslash-s as used by
QRegularExpression, without the newline. -/
def wsChar (c : Char) : Bool :=
  c = ' ' || c = '\t' || c = '\r' || c = '\x0b' || c = '\x0c'

/-- The full PCRE class backslash-s, newline included: the token
separators of the two patterns below may therefore cross line
boundaries. -/
def wsCharN (c : Char) : Bool :=
  wsChar c || c = '\n'

/-- Word characters of the PCRE class backslash-w (ASCII letters, digits
and the underscore). -/
def wordChar (c : Char) : Bool :=
  c.isAlphanum || c = '_'

/-- Characters of the numeric token class `[\.\d]` of the pragma
pattern. -/
def numChar (c : Char) : Bool :=
  c.isDigit || c = '.'

/-- Joins lines with a newline separator; used for the generated stage
header. -/
def joinLines : List String → String
  | [] => ""
  | l :: rest => if rest.isEmpty then l else l ++ "\n" ++ joinLines rest

/-! ## Small scanners shared by the two regular expressions of addShader

Both patterns are matched with the multiline option, so a match can only
start at the beginning of the text or directly after a newline.  Their
greedy pieces are deterministic: every backslash-s run is followed by a
character that is never whitespace, and every word or numeric token is
followed by a character outside its own class, so maximal munch agrees
with the backtracking engine.  The two places where real backtracking
matters are the greedy description capture of the pragma pattern
(modeled by trying the candidate closing quotes from the right) and its
optional step group (modeled by an explicit fallback). -/

/-- Consumes the literal given by the first list from the front of the
second list. -/
def dropLit : List Char → List Char → Option (List Char)
  | [], cs => some cs
  | _ :: _, [] => none
  | p :: ps, c :: cs => if c = p then dropLit ps cs else none

/-- Consumes one or more whitespace characters, newline included (the
pattern backslash-s followed by plus); returns the rest, or `none` when
no whitespace is present. -/
def dropWs1N : List Char → Option (List Char)
  | [] => none
  | c :: cs => if wsCharN c then some (cs.dropWhile wsCharN) else none

/-- Scans one numeric token of the pattern `-?[\.\d]+` by maximal munch.
Returns the captured token text and the rest. -/
def numTok (cs : List Char) : Option (String × List Char) :=
  match cs with
  | '-' :: rest =>
    if (rest.takeWhile numChar).isEmpty then none
    else some (String.mk ('-' :: rest.takeWhile numChar), rest.dropWhile numChar)
  | _ =>
    if (cs.takeWhile numChar).isEmpty then none
    else some (String.mk (cs.takeWhile numChar), cs.dropWhile numChar)

/-- Value of a list of decimal digit characters. -/
def digitsVal (cs : List Char) : Nat :=
  cs.foldl (fun a c => a * 10 + (c.toNat - 48)) 0

/-- Parses an unsigned decimal number `digits [ . digits ]` with at least
one digit overall, as accepted by QString::toFloat for the tokens the
pragma grammar can produce. -/
def parseUnsigned (cs : List Char) : Option Rat :=
  let s := cs.span Char.isDigit
  match s.2 with
  | [] => if s.1.isEmpty then none else some (digitsVal s.1)
  | '.' :: fp =>
    if fp.all Char.isDigit && !(s.1.isEmpty && fp.isEmpty) then
      some ((digitsVal s.1 : Rat) + (digitsVal fp : Rat) / ((10 : Rat) ^ fp.length))
    else none
  | _ => none

/-- Parses an optionally signed decimal number. -/
def parseDecimal (s : String) : Option Rat :=
  match s.data with
  | '-' :: rest => (parseUnsigned rest).map (fun q => -q)
  | cs => parseUnsigned cs

/-- QString::toFloat semantics on the tokens produced by the pragma
grammar: the parsed value, or zero when the token is not a well formed
number (for example a token with two dots). -/
def toFloatQ (s : String) : Rat :=
  (parseDecimal s).getD 0

/-! ## The parameter pragma pattern

The C++ code builds the multiline regular expression

  `^\s*#pragma\s+parameter\s+(\w+)\s+"(.+)"\s+(-?[\.\d]+)\s+(-?[\.\d]+)\s+(-?[\.\d]+)(\s+-?[\.\d]+)?.*?\n`

and removes every match from the shader source
(qt_opengloptions.cpp lines 172 to 195).  A match starts only at a line
start.  Its backslash-s pieces match the newline as well, so the leading
whitespace can swallow whole blank lines preceding the directive, the
token separators can cross a newline, and the greedy optional step group
can consume a newline together with a number on the following line.  The
description and the lazy trailing piece cannot contain a newline, and
the match always ends by consuming the first newline at or after its
last token; a final segment not terminated by a newline therefore never
matches. -/

/-- The capture groups of one match of the parameter pragma pattern.
The numeric fields are the captured texts, unparsed. -/
structure PragmaCapture where
  name : String
  desc : String
  initial : String
  minv : String
  maxv : String
  stepv : Option String
deriving DecidableEq

/-- All ways to split a character list at a double quote character lying
before the first newline (the description capture cannot contain a
newline), in left to right order: each element is the text before the
quote and the rest after it. -/
def quoteSplitsNl : List Char → List (List Char × List Char)
  | [] => []
  | c :: cs =>
    if c = '\n' then []
    else if c = '"' then ([], cs) :: (quoteSplitsNl cs).map (fun p => (c :: p.1, p.2))
    else (quoteSplitsNl cs).map (fun p => (c :: p.1, p.2))

/-- Consumes the characters matched by the lazy trailing piece up to and
including the first newline; fails when no newline follows. -/
def consumeToNl : List Char → Option (List Char)
  | [] => none
  | c :: cs => if c = '\n' then some cs else consumeToNl cs

/-- The optional step group `(\s+-?[\.\d]+)?` of the pragma pattern:
whitespace, possibly crossing a newline, followed by a numeric token.
The group of the pattern captures the leading whitespace too; only the
token is kept here because QString::toFloat ignores the whitespace. -/
def stepTryN (cs : List Char) : Option (String × List Char) :=
  match dropWs1N cs with
  | none => none
  | some r => numTok r

/-- Parses the pattern tail after the closing quote of the description:
three whitespace separated numeric tokens, the optional step group, and
the lazy trailing piece ending at the first newline.  The greedy step
group is preferred; when taking it leaves no newline to finish the
match, the engine backtracks to the empty group, modeled by the
explicit fallback.  Returns the captured tokens and the rest after the
consumed newline. -/
def tailParse (cs : List Char) : Option ((String × String × String × Option String) × List Char) :=
  match dropWs1N cs with
  | none => none
  | some r1 =>
    match numTok r1 with
    | none => none
    | some (n1, r2) =>
      match dropWs1N r2 with
      | none => none
      | some r3 =>
        match numTok r3 with
        | none => none
        | some (n2, r4) =>
          match dropWs1N r4 with
          | none => none
          | some r5 =>
            match numTok r5 with
            | none => none
            | some (n3, r6) =>
              match stepTryN r6 with
              | some (n4, r7) =>
                match consumeToNl r7 with
                | some r8 => some ((n1, n2, n3, some n4), r8)
                | none =>
                  match consumeToNl r6 with
                  | some r8 => some ((n1, n2, n3, none), r8)
                  | none => none
              | none =>
                match consumeToNl r6 with
                | some r8 => some ((n1, n2, n3, none), r8)
                | none => none

/-- Tries the candidate description splits in the order given; used with
the reversed output of `quoteSplitsNl` this realizes the greedy
semantics of the capture `(.+)` followed by the closing quote: the
longest description whose full remaining tail still matches wins. -/
def descTry : List (List Char × List Char) → Option (List Char × ((String × String × String × Option String) × List Char))
  | [] => none
  | (d, after) :: rest =>
    if d.isEmpty then descTry rest
    else
      match tailParse after with
      | some ns => some (d, ns)
      | none => descTry rest

/-- Attempts one match of the pragma pattern at a line start.  Returns
the capture groups and the rest of the text after the match; the match
ends directly after a newline, so the rest starts at a line start. -/
def pragmaTry (cs : List Char) : Option (PragmaCapture × List Char) :=
  match dropLit "#pragma".data (cs.dropWhile wsCharN) with
  | none => none
  | some r1 =>
    match dropWs1N r1 with
    | none => none
    | some r2 =>
      match dropLit "parameter".data r2 with
      | none => none
      | some r3 =>
        match dropWs1N r3 with
        | none => none
        | some r4 =>
          if (r4.takeWhile wordChar).isEmpty then none
          else
            match dropWs1N (r4.dropWhile wordChar) with
            | none => none
            | some r6 =>
              match dropLit ['"'] r6 with
              | none => none
              | some r7 =>
                match descTry ((quoteSplitsNl r7).reverse) with
                | none => none
                | some (d, ns, rest) =>
                  some (⟨String.mk (r4.takeWhile wordChar), String.mk d,
                    ns.1, ns.2.1, ns.2.2.1, ns.2.2.2⟩, rest)

/-- Modelled from the spec: the ParsedParameterDeclaration record of
section 4.2.  The declaration producing loop is present in the C++
source only as commented out code (qt_opengloptions.cpp lines 179 to
191); the record and the parsing of the numeric captures follow the
words of the spec, which agree with that commented code. -/
structure ParsedParameterDeclaration where
  name : String
  description : String
  initial : Rat
  minimum : Rat
  maximum : Rat
  step : Option Rat
deriving DecidableEq

/-- Modelled from the spec: one declaration per match, fields equal to
the capture groups with the numeric fields parsed as numbers. -/
def mkDecl (c : PragmaCapture) : ParsedParameterDeclaration :=
  ⟨c.name, c.desc, toFloatQ c.initial, toFloatQ c.minv, toFloatQ c.maxv, c.stepv.map toFloatQ⟩

/-! ## The removal and collection scans

QString::remove with a regular expression removes every non overlapping
match, scanning left to right; globalMatch visits the same matches.  The
scans below walk the text character by character, carrying whether the
current position is a line start, and attempt a match only there.  The
fuel argument merely bounds the recursion depth: every step either emits
one character or jumps over a non empty match, so the initial fuel, the
length of the text, is never exhausted early; the step equations proved
with the claims below make this exact. -/

/-- The removal scan for the pragma pattern. -/
def removePragmasAux : Nat → Bool → List Char → List Char
  | 0, _, cs => cs
  | fuel + 1, atStart, cs =>
    match cond atStart (pragmaTry cs) none with
    | some p => removePragmasAux fuel true p.2
    | none =>
      match cs with
      | [] => []
      | c :: cs' => c :: removePragmasAux fuel (c == '\n') cs'

/-- Removing every pragma match starting from the given scan state. -/
def removePragmasFrom (atStart : Bool) (cs : List Char) : List Char :=
  removePragmasAux cs.length atStart cs

/-- The effect of removing every match of the pragma pattern from the
text, the operation source.remove(parameter) of the code. -/
def removePragmas (cs : List Char) : List Char :=
  removePragmasFrom true cs

/-- The collection scan gathering the capture groups of every match, in
order (the globalMatch loop of the commented out code). -/
def collectPragmasAux : Nat → Bool → List Char → List PragmaCapture
  | 0, _, _ => []
  | fuel + 1, atStart, cs =>
    match cond atStart (pragmaTry cs) none with
    | some p => p.1 :: collectPragmasAux fuel true p.2
    | none =>
      match cs with
      | [] => []
      | c :: cs' => collectPragmasAux fuel (c == '\n') cs'

/-- Collecting every pragma capture starting from the given scan state. -/
def collectPragmasFrom (atStart : Bool) (cs : List Char) : List PragmaCapture :=
  collectPragmasAux cs.length atStart cs

/-- Modelled from the spec: the declarations produced by scanning the
source, one per match of the pragma pattern, in source order. -/
def collectDecls (cs : List Char) : List ParsedParameterDeclaration :=
  (collectPragmasFrom true cs).map mkDecl

/-! ## The version directive pattern

The C++ code uses the multiline pattern `^\s*(#version\s+\w+)`
(qt_opengloptions.cpp lines 197 to 207): the first match is captured as
the version line, then every match is removed from the source.  A match
starts only at a line start; it consumes the leading whitespace (which
can swallow whole blank lines, newline included) and the directive,
whose inner backslash-s run can itself cross a newline, but not the
rest of the line after the directive word. -/

/-- Attempts one match of the version pattern at a line start.  Returns
the captured directive (group one, without the leading whitespace) and
the rest of the text after the match; the rest resumes in the middle of
a line. -/
def versionTry (cs : List Char) : Option (String × List Char) :=
  match dropLit "#version".data (cs.dropWhile wsCharN) with
  | none => none
  | some r1 =>
    if (r1.takeWhile wsCharN).isEmpty then none
    else
      if ((r1.dropWhile wsCharN).takeWhile wordChar).isEmpty then none
      else
        some (String.mk ("#version".data ++ r1.takeWhile wsCharN
            ++ (r1.dropWhile wsCharN).takeWhile wordChar),
          (r1.dropWhile wsCharN).dropWhile wordChar)

/-- The removal scan for the version pattern; a match resumes the scan
in the middle of a line, so no new match can start before the next
newline. -/
def removeVersionsAux : Nat → Bool → List Char → List Char
  | 0, _, cs => cs
  | fuel + 1, atStart, cs =>
    match cond atStart (versionTry cs) none with
    | some p => removeVersionsAux fuel false p.2
    | none =>
      match cs with
      | [] => []
      | c :: cs' => c :: removeVersionsAux fuel (c == '\n') cs'

/-- Removing every version match starting from the given scan state. -/
def removeVersionsFrom (atStart : Bool) (cs : List Char) : List Char :=
  removeVersionsAux cs.length atStart cs

/-- The effect of removing every match of the version pattern from the
text, the operation source.remove(version) of the code. -/
def removeVersions (cs : List Char) : List Char :=
  removeVersionsFrom true cs

/-- The captured directive of the first match of the version pattern, or
`none` when there is no match; the scan stops at the first match, so it
needs no fuel. -/
def findVersionAux : Bool → List Char → Option String
  | _, [] => none
  | atStart, c :: cs =>
    match cond atStart (versionTry (c :: cs)) none with
    | some p => some p.1
    | none => findVersionAux (c == '\n') cs

/-! ## The Qt JSON value model

QJsonDocument::fromJson yields a null document exactly when parsing
fails; the parser itself is external and appears as a field of the
environment below.  The accessor semantics of QJsonValue are modeled
here: a missing key or a key access on a non object yields the
undefined value, and the conversion functions fall back to an empty
array, empty object, empty string or zero. -/

inductive QJson where
  | null
  | undef
  | bool (b : Bool)
  | num (q : Rat)
  | str (s : String)
  | arr (items : List QJson)
  | obj (fields : List (String × QJson))

/-- Key access on a document or value: the value stored under the key of
an object, undefined otherwise.  QJsonObject cannot hold duplicate keys,
so the first binding is the binding. -/
def QJson.getKey : QJson → String → QJson
  | QJson.obj fields, k =>
    match fields.find? (fun kv => kv.1 == k) with
    | some kv => kv.2
    | none => QJson.undef
  | _, _ => QJson.undef

/-- QJsonValue::toArray with the default empty fallback. -/
def QJson.toArr : QJson → List QJson
  | QJson.arr items => items
  | _ => []

/-- QJsonValue::toObject with the default empty fallback, as the field
list.  QJsonObject iterates its keys in sorted order; concrete objects in
this file list their fields in that order. -/
def QJson.toObj : QJson → List (String × QJson)
  | QJson.obj fields => fields
  | _ => []

/-- QJsonValue::toString with the default empty fallback. -/
def QJson.toStringQ : QJson → String
  | QJson.str s => s
  | _ => ""

/-- The composition toVariant followed by toFloat used for parameter
values. -/
def QJson.toVariantFloat : QJson → Rat
  | QJson.num q => q
  | QJson.bool b => if b then 1 else 0
  | QJson.str s => toFloatQ s
  | _ => 0

/-- The parameter list collected from the "parameters" value of one
preset entry: one pair per key of the object. -/
def paramsOf (j : QJson) : List (String × Rat) :=
  (QJson.toObj j).map (fun kv => (kv.1, QJson.toVariantFloat kv.2))

/-! ## The external environment -/

/-- The two shader stages. -/
inductive Stage where
  | vertex
  | fragment
deriving DecidableEq

/-- The external collaborators of the core, as pure functions.  A linked
program is identified by its two stage sources, so the location queries
take both sources and the symbol name.  `readFile` returning `none`
models readTextFile throwing; `parseJson` returning `none` models a null
QJsonDocument (parse failure). -/
structure Env where
  readFile : String → Option String
  parseJson : String → Option QJson
  compileOk : Stage → String → Bool
  linkOk : String → String → Bool
  attributeLocation : String → String → String → Int
  uniformLocation : String → String → String → Int

/-! ## OpenGLShaderPass (qt_opengloptions.hpp lines 27 to 74) -/

/-- One compiled pass: the program (identified by its stage sources), the
provenance path, the resolved fixed attribute and uniform locations (a
location of minus one marks an absent name), and the resolved parameter
bindings. -/
structure OpenGLShaderPass where
  vsrc : String
  fsrc : String
  m_path : String
  m_vertex_coord : Int
  m_tex_coord : Int
  m_color : Int
  m_mvp_matrix : Int
  m_input_size : Int
  m_output_size : Int
  m_texture_size : Int
  m_frame_count : Int
  m_parameters : List (Int × Rat)
deriving DecidableEq

/-- The parameter resolution loop of the OpenGLShaderPass constructor:
each parameter whose name has a uniform location other than minus one is
appended as a location and value pair, in order; the others are skipped. -/
def resolveParams (u : String → Int) : List (String × Rat) → List (Int × Rat)
  | [] => []
  | p :: ps =>
    if u p.1 != -1 then (u p.1, p.2) :: resolveParams u ps
    else resolveParams u ps

/-- The OpenGLShaderPass constructor (qt_opengloptions.hpp lines 29 to
46): resolves the fixed attribute and uniform names and filters the
parameter list down to names present as uniforms. -/
def mkShaderPass (env : Env) (vsrc fsrc path : String) (params : List (String × Rat)) : OpenGLShaderPass :=
  { vsrc := vsrc
    fsrc := fsrc
    m_path := path
    m_vertex_coord := env.attributeLocation vsrc fsrc "VertexCoord"
    m_tex_coord := env.attributeLocation vsrc fsrc "TexCoord"
    m_color := env.attributeLocation vsrc fsrc "Color"
    m_mvp_matrix := env.uniformLocation vsrc fsrc "MVPMatrix"
    m_input_size := env.uniformLocation vsrc fsrc "InputSize"
    m_output_size := env.uniformLocation vsrc fsrc "OutputSize"
    m_texture_size := env.uniformLocation vsrc fsrc "TextureSize"
    m_frame_count := env.uniformLocation vsrc fsrc "FrameCount"
    m_parameters := resolveParams (env.uniformLocation vsrc fsrc) params }

/-! ## Pass assembly (qt_opengloptions.cpp lines 169 to 239) -/

/-- The fixed extension enable directive of the generated header. -/
def extLine : String := "#extension GL_ARB_shading_language_420pack : enable"

/-- The fixed parameter uniform enable macro line of the generated
header. -/
def puLine : String := "#define PARAMETER_UNIFORM"

/-- The stage selecting token substituted for the place marker of the
header. -/
def stageName : Stage → String
  | Stage.vertex => "VERTEX"
  | Stage.fragment => "FRAGMENT"

/-- The header line list of the code with the stage place marker already
substituted (QString::arg replaces the marker; the caller supplied
version directive is assumed to contain no Qt place marker, which a
captured directive never does).  The final empty element makes the join
end in a newline directly before the body. -/
def stageHeaderList (versionLine : String) (st : Stage) : List String :=
  [versionLine, extLine, puLine, "#define " ++ stageName st, "#line 1", ""]

/-- Follows the words of claim C5 and spec section 4.4 only, for
comparison with `stageHeaderList`: the claimed order places the stage
macro line before the parameter uniform line. -/
def specHeaderC5 (versionLine : String) (st : Stage) : List String :=
  [versionLine, extLine, "#define " ++ stageName st, puLine, "#line 1", ""]

/-- The full source text handed to the compiler for one stage: the joined
header followed by the stripped body. -/
def stageSrc (versionLine : String) (st : Stage) (body : String) : String :=
  joinLines (stageHeaderList versionLine st) ++ body

/-- The preprocessing of addShader on one source: remove every parameter
pragma match, then capture the first version directive and remove every
version match, or keep the source unchanged and use the caller supplied
default directive when there is no version match.  Returns the effective
version line and the body text. -/
def effVersionBody (glslV source : String) : String × String :=
  let cs := removePragmas source.data
  match findVersionAux true cs with
  | some cap => (cap, String.mk (removeVersions cs))
  | none => (glslV, String.mk cs)

/-- The source overload of OpenGLOptions::addShader
(qt_opengloptions.cpp lines 169 to 239), without the append to the
pipeline: preprocess, build both stage sources, compile both stages and
link.  Any compile or link failure throws, modeled as the error result. -/
def addShaderSrc (env : Env) (glslV source path : String) (params : List (String × Rat)) : Except Unit OpenGLShaderPass :=
  let vb := effVersionBody glslV source
  let vsrc := stageSrc vb.1 Stage.vertex vb.2
  let fsrc := stageSrc vb.1 Stage.fragment vb.2
  if env.compileOk Stage.vertex vsrc = false then Except.error ()
  else if env.compileOk Stage.fragment fsrc = false then Except.error ()
  else if env.linkOk vsrc fsrc = false then Except.error ()
  else Except.ok (mkShaderPass env vsrc fsrc path params)

/-- Result of an addShader call sequence on the pipeline list: the list
after the call, tagged with whether an exception escaped.  The error
case carries the pipeline as mutated up to the throw, because the C++
code appends each successful pass before a later failure can occur. -/
inductive AddResult where
  | ok (shaders : List OpenGLShaderPass)
  | err (shaders : List OpenGLShaderPass)
deriving DecidableEq

/-- The source overload of addShader including its append of the new pass
to the pipeline list. -/
def addShaderSrcApp (env : Env) (glslV source path : String) (params : List (String × Rat)) (shaders : List OpenGLShaderPass) : AddResult :=
  match addShaderSrc env glslV source path params with
  | Except.ok p => AddResult.ok (shaders ++ [p])
  | Except.error _ => AddResult.err shaders

/-- The loop over the entries of the "shaders" array of a preset document
(qt_opengloptions.cpp lines 143 to 163): for each entry read the required
path (throw when empty), collect the parameter pairs, load the sub
resource and assemble the pass; each successful pass is appended before
the next entry is examined. -/
def entriesLoop (env : Env) (glslV : String) : List QJson → List OpenGLShaderPass → AddResult
  | [], shaders => AddResult.ok shaders
  | item :: rest, shaders =>
    let sh := QJson.obj (QJson.toObj item)
    let sPath := QJson.toStringQ (QJson.getKey sh "path")
    if sPath = "" then AddResult.err shaders
    else
      match env.readFile sPath with
      | none => AddResult.err shaders
      | some subSrc =>
        match addShaderSrc env glslV subSrc sPath (paramsOf (QJson.getKey sh "parameters")) with
        | Except.ok p => entriesLoop env glslV rest (shaders ++ [p])
        | Except.error _ => AddResult.err shaders

/-- The path overload of OpenGLOptions::addShader (qt_opengloptions.cpp
lines 135 to 167): load the resource; when the document parses, process
the entries of its "shaders" value; when parsing fails, treat the whole
text as one raw shader with the original path and no parameters. -/
def addShaderPath (env : Env) (glslV path : String) (shaders : List OpenGLShaderPass) : AddResult :=
  match env.readFile path with
  | none => AddResult.err shaders
  | some bytes =>
    match env.parseJson bytes with
    | some j => entriesLoop env glslV (QJson.toArr (QJson.getKey j "shaders")) shaders
    | none => addShaderSrcApp env glslV bytes path [] shaders

/-! ## The default shader (qt_opengloptions.cpp lines 34 to 51 and 241
to 249) -/

/-- The built in default vertex shader source. -/
def defaultVertexShader : String :=
  "in vec2 VertexCoord;\nin vec2 TexCoord;\nout vec2 tex;\nvoid main()\x7b\n    gl_Position = vec4(VertexCoord, 0.0, 1.0);\n    tex = TexCoord;\n\x7d\n"

/-- The built in default fragment shader source. -/
def defaultFragmentShader : String :=
  "in vec2 tex;\nuniform sampler2D texsampler;\nout vec4 color;\nvoid main() \x7b\n    color = texture(texsampler, tex);\n\x7d\n"

/-- The pass built by addDefaultShader: the version directive prepended
to each built in source, compile and link results ignored, empty path
and no parameters. -/
def defaultPassOf (env : Env) (glslV : String) : OpenGLShaderPass :=
  mkShaderPass env (glslV ++ "\n" ++ defaultVertexShader) (glslV ++ "\n" ++ defaultFragmentShader) "" []

/-- OpenGLOptions::addDefaultShader: appends the default pass to the
pipeline; it checks no compile or link result and never throws. -/
def addDefaultShader (env : Env) (glslV : String) (shaders : List OpenGLShaderPass) : List OpenGLShaderPass :=
  shaders ++ [defaultPassOf env glslV]

/-! ## OpenGLOptions (qt_opengloptions.cpp lines 53 to 133) -/

/-- The externally governed persisted configuration: the global variables
video_filter_method, video_vsync, video_framerate and video_shader of
86box.h.  The shader path is modeled as a string; the fixed buffer
truncation of qstrncpy is not modeled. -/
structure Globals where
  video_filter_method : Int
  video_vsync : Int
  video_framerate : Int
  video_shader : String
deriving DecidableEq

/-- The render behavior enumeration. -/
inductive RenderBehaviorType where
  | SyncWithVideo
  | TargetFramerate
deriving DecidableEq

/-- The filter enumeration. -/
inductive FilterType where
  | Nearest
  | Linear
deriving DecidableEq

/-- The OpenGLOptions aggregate state. -/
structure OpenGLOptions where
  m_renderBehavior : RenderBehaviorType
  m_framerate : Int
  m_vsync : Bool
  m_filter : FilterType
  m_shaders : List OpenGLShaderPass
  m_glslVersion : String
deriving DecidableEq

/-- The mapping of the live filter method variable to the filter type:
Nearest when the variable is zero, Linear otherwise. -/
def filterOfGlobal (g : Globals) : FilterType :=
  if g.video_filter_method = 0 then FilterType.Nearest else FilterType.Linear

/-- The member initializer state of the aggregate together with the
filter assignment done before the loadConfig test
(qt_opengloptions.cpp lines 53 to 62 and the defaults of the header). -/
def baseOptions (g : Globals) (glslV : String) : OpenGLOptions :=
  { m_renderBehavior := RenderBehaviorType.SyncWithVideo
    m_framerate := -1
    m_vsync := false
    m_filter := filterOfGlobal g
    m_shaders := []
    m_glslVersion := glslV }

/-- The pipeline produced by the tail of the constructor when loading
from the configuration: an empty persisted path adds the default pass;
otherwise addShader is attempted and a thrown error is caught and
answered by addDefaultShader on the pipeline as already mutated, so the
partially built passes are kept in front of the default pass. -/
def loadShaders (env : Env) (glslV : String) (g : Globals) : List OpenGLShaderPass :=
  if g.video_shader = "" then addDefaultShader env glslV []
  else
    match addShaderPath env glslV g.video_shader [] with
    | AddResult.ok s => s
    | AddResult.err s => addDefaultShader env glslV s

/-- The OpenGLOptions constructor (qt_opengloptions.cpp lines 53 to 84).
When loadConfig is false it returns right after the filter assignment,
with an empty pipeline; otherwise it populates the scalar settings from
the globals and builds the pipeline. -/
def OpenGLOptions.init (env : Env) (g : Globals) (loadConfig : Bool) (glslV : String) : OpenGLOptions :=
  if loadConfig = false then baseOptions g glslV
  else
    { baseOptions g glslV with
      m_vsync := g.video_vsync != 0
      m_framerate := g.video_framerate
      m_renderBehavior :=
        if g.video_framerate = -1 then RenderBehaviorType.SyncWithVideo
        else RenderBehaviorType.TargetFramerate
      m_shaders := loadShaders env glslV g }

/-- OpenGLOptions::save (qt_opengloptions.cpp lines 86 to 100): writes
the scalar settings and the path of the first pipeline pass back to the
globals.  Taking the first element of an empty QList is an invalid
access, modeled as `none`; otherwise the updated globals are returned. -/
def OpenGLOptions.save (o : OpenGLOptions) (g : Globals) : Option Globals :=
  let g1 : Globals :=
    { g with
      video_vsync := if o.m_vsync then 1 else 0
      video_framerate :=
        if o.m_renderBehavior = RenderBehaviorType.SyncWithVideo then -1 else o.m_framerate
      video_filter_method := if o.m_filter = FilterType.Nearest then 0 else 1 }
  match o.m_shaders with
  | [] => none
  | first :: _ => some { g1 with video_shader := first.m_path }

/-- OpenGLOptions::filter (qt_opengloptions.cpp lines 102 to 109): the
filter method is controlled externally, so every query reads the live
global value and the locally stored field is ignored. -/
def OpenGLOptions.filter (_o : OpenGLOptions) (g : Globals) : FilterType :=
  filterOfGlobal g

/-- OpenGLOptions::setRenderBehavior. -/
def OpenGLOptions.setRenderBehavior (o : OpenGLOptions) (v : RenderBehaviorType) : OpenGLOptions :=
  { o with m_renderBehavior := v }

/-- OpenGLOptions::setFrameRate. -/
def OpenGLOptions.setFrameRate (o : OpenGLOptions) (v : Int) : OpenGLOptions :=
  { o with m_framerate := v }

/-- OpenGLOptions::setVSync. -/
def OpenGLOptions.setVSync (o : OpenGLOptions) (v : Bool) : OpenGLOptions :=
  { o with m_vsync := v }

/-- OpenGLOptions::setFilter: records the value in the local field only;
the global variable is untouched until save runs. -/
def OpenGLOptions.setFilter (o : OpenGLOptions) (v : FilterType) : OpenGLOptions :=
  { o with m_filter := v }

/-- One setter call of the public interface. -/
inductive SetterOp where
  | setRB (v : RenderBehaviorType)
  | setFR (v : Int)
  | setVS (v : Bool)
  | setF (v : FilterType)

/-- Applies a sequence of setter calls in order. -/
def applyOps : List SetterOp → OpenGLOptions → OpenGLOptions
  | [], o => o
  | SetterOp.setRB v :: rest, o => applyOps rest (OpenGLOptions.setRenderBehavior o v)
  | SetterOp.setFR v :: rest, o => applyOps rest (OpenGLOptions.setFrameRate o v)
  | SetterOp.setVS v :: rest, o => applyOps rest (OpenGLOptions.setVSync o v)
  | SetterOp.setF v :: rest, o => applyOps rest (OpenGLOptions.setFilter o v)

/-! ## Concrete environments and states used by the instance theorems -/

/-- A trivial environment: no file exists, nothing parses, every compile
and link succeeds, every location query answers absent. -/
def envTriv : Env :=
  { readFile := fun _ => none
    parseJson := fun _ => none
    compileOk := fun _ _ => true
    linkOk := fun _ _ => true
    attributeLocation := fun _ _ _ => -1
    uniformLocation := fun _ _ _ => -1 }

/-- A neutral globals state. -/
def gTriv : Globals :=
  { video_filter_method := 0
    video_vsync := 0
    video_framerate := -1
    video_shader := "" }

/-- The text of a two entry preset document whose second sub resource is
missing. -/
def presetBytesC1 : String :=
  "\x7b \"shaders\": [ \x7b \"path\": \"a.glsl\" \x7d, \x7b \"path\": \"b.glsl\" \x7d ] \x7d"

/-- The parse of `presetBytesC1`. -/
def presetJsonC1 : QJson :=
  QJson.obj [("shaders", QJson.arr
    [QJson.obj [("path", QJson.str "a.glsl")],
     QJson.obj [("path", QJson.str "b.glsl")]])]

/-- Environment for the C1 instance: the preset and its first sub
resource load, the second sub resource is missing, compilation always
succeeds. -/
def envC1 : Env :=
  { readFile := fun p =>
      if p = "preset.json" then some presetBytesC1
      else if p = "a.glsl" then some "x" else none
    parseJson := fun s => if s = presetBytesC1 then some presetJsonC1 else none
    compileOk := fun _ _ => true
    linkOk := fun _ _ => true
    attributeLocation := fun _ _ _ => -1
    uniformLocation := fun _ _ _ => -1 }

/-- Globals whose persisted shader path names the two entry preset. -/
def gC1 : Globals :=
  { video_filter_method := 0
    video_vsync := 0
    video_framerate := -1
    video_shader := "preset.json" }

/-- The pass the C1 environment builds from the first preset entry. -/
def passA1 : OpenGLShaderPass :=
  mkShaderPass envC1 (stageSrc "v" Stage.vertex "x") (stageSrc "v" Stage.fragment "x") "a.glsl" []

/-- Environment for the C2 instance: the resource is the text of a top
level JSON array, which Qt parses successfully. -/
def envC2 : Env :=
  { readFile := fun p => if p = "arr.json" then some "[]" else none
    parseJson := fun s => if s = "[]" then some (QJson.arr []) else none
    compileOk := fun _ _ => true
    linkOk := fun _ _ => true
    attributeLocation := fun _ _ _ => -1
    uniformLocation := fun _ _ _ => -1 }

/-- Globals whose persisted shader path names the top level array
resource of `envC2`. -/
def gArr : Globals :=
  { video_filter_method := 0
    video_vsync := 0
    video_framerate := -1
    video_shader := "arr.json" }

/-- Environment for the C7 instance: only the uniform named x exists in
any program. -/
def envU : Env :=
  { readFile := fun _ => none
    parseJson := fun _ => none
    compileOk := fun _ _ => true
    linkOk := fun _ _ => true
    attributeLocation := fun _ _ _ => -1
    uniformLocation := fun _ _ n => if n = "x" then 3 else -1 }

/-- The pass the C7 environment builds from the raw source b at path p
with parameters x and y. -/
def passU : OpenGLShaderPass :=
  mkShaderPass envU (stageSrc "v" Stage.vertex "b") (stageSrc "v" Stage.fragment "b") "p" [("x", 1), ("y", 2)]

/-- A pass value with every location absent, used to populate pipelines
in instance theorems. -/
def passTriv : OpenGLShaderPass :=
  { vsrc := ""
    fsrc := ""
    m_path := ""
    m_vertex_coord := -1
    m_tex_coord := -1
    m_color := -1
    m_mvp_matrix := -1
    m_input_size := -1
    m_output_size := -1
    m_texture_size := -1
    m_frame_count := -1
    m_parameters := [] }

/-- An aggregate state with an empty pipeline. -/
def opts0 : OpenGLOptions :=
  { m_renderBehavior := RenderBehaviorType.SyncWithVideo
    m_framerate := -1
    m_vsync := false
    m_filter := FilterType.Nearest
    m_shaders := []
    m_glslVersion := "v" }

/-- The C8 instance state: target framerate behavior together with the
sentinel framerate value minus one. -/
def opts8 : OpenGLOptions :=
  { m_renderBehavior := RenderBehaviorType.TargetFramerate
    m_framerate := -1
    m_vsync := true
    m_filter := FilterType.Linear
    m_shaders := [passTriv]
    m_glslVersion := "v" }

/-- The globals written by saving `opts8`. -/
def g8val : Globals :=
  { video_filter_method := 1
    video_vsync := 1
    video_framerate := -1
    video_shader := "" }

/-- The C8 witness state: target framerate behavior with an ordinary
framerate value. -/
def optsW8 : OpenGLOptions :=
  { m_renderBehavior := RenderBehaviorType.TargetFramerate
    m_framerate := 60
    m_vsync := true
    m_filter := FilterType.Nearest
    m_shaders := [passTriv]
    m_glslVersion := "v" }

/-- The globals written by saving `optsW8`. -/
def gW8 : Globals :=
  { video_filter_method := 0
    video_vsync := 1
    video_framerate := 60
    video_shader := "" }

/-- The C3 instance source: two version directive lines. -/
def src3 : String := "#version 110\nA\n#version 120\nB"

/-- A parameter pragma line. -/
def pragALine : String := "#pragma parameter a \"d\" 1 0 2"

/-- A second parameter pragma line, placed last without a trailing
newline in the C6 instance. -/
def pragBLine : String := "#pragma parameter b \"e\" 0 0 1"

/-- The C6 instance source: a whitespace-only line, a matching pragma
line, a body line, and a matching pragma line as the final segment not
terminated by a newline. -/
def src6 : String :=
  "  \n#pragma parameter a \"d\" 1 0 2\nbody\n#pragma parameter b \"e\" 0 0 1"

/-- The capture groups of `pragALine`. -/
def capA : PragmaCapture :=
  { name := "a"
    desc := "d"
    initial := "1"
    minv := "0"
    maxv := "2"
    stepv := none }

/-! ## Shared helper lemmas -/

/-- Constructing without loading the configuration returns right after
the filter assignment, with the empty pipeline of the member
initializers. -/
theorem init_false_shaders (env : Env) (g : Globals) (v : String) :
    (OpenGLOptions.init env g false v).m_shaders = [] := rfl

/-- The vsync field populated by the loading constructor. -/
theorem init_vsync_eq (env : Env) (g : Globals) (v : String) :
    (OpenGLOptions.init env g true v).m_vsync = (g.video_vsync != 0) := rfl

/-- The framerate field populated by the loading constructor. -/
theorem init_framerate_eq (env : Env) (g : Globals) (v : String) :
    (OpenGLOptions.init env g true v).m_framerate = g.video_framerate := rfl

/-- The render behavior field populated by the loading constructor. -/
theorem init_rb_eq (env : Env) (g : Globals) (v : String) :
    (OpenGLOptions.init env g true v).m_renderBehavior
      = (if g.video_framerate = -1 then RenderBehaviorType.SyncWithVideo
         else RenderBehaviorType.TargetFramerate) := rfl

/-- The pipeline built by the loading constructor. -/
theorem init_shaders_eq (env : Env) (g : Globals) (v : String) :
    (OpenGLOptions.init env g true v).m_shaders = loadShaders env v g := rfl

/-- Every filter query reads the live global value. -/
theorem filter_eq (o : OpenGLOptions) (g : Globals) :
    OpenGLOptions.filter o g = filterOfGlobal g := rfl

/-- Saving a state with an empty pipeline reaches the invalid first
element access. -/
theorem save_nil (o : OpenGLOptions) (g : Globals) (h : o.m_shaders = []) :
    OpenGLOptions.save o g = none := by
  unfold OpenGLOptions.save
  rw [h]

/-- Saving a state with a non empty pipeline writes the scalar settings
and the path of the first pass. -/
theorem save_cons (o : OpenGLOptions) (g : Globals) (f : OpenGLShaderPass)
    (rest : List OpenGLShaderPass) (h : o.m_shaders = f :: rest) :
    OpenGLOptions.save o g = some
      { video_filter_method := if o.m_filter = FilterType.Nearest then 0 else 1
        video_vsync := if o.m_vsync then 1 else 0
        video_framerate :=
          if o.m_renderBehavior = RenderBehaviorType.SyncWithVideo then -1 else o.m_framerate
        video_shader := f.m_path } := by
  unfold OpenGLOptions.save
  rw [h]

/-- A successful pass assembly yields exactly the pass constructed from
the two assembled stage sources, the given path and the given parameter
list. -/
theorem addShaderSrc_ok (env : Env) (v src path : String) (P : List (String × Rat))
    (p : OpenGLShaderPass) (h : addShaderSrc env v src path P = Except.ok p) :
    p = mkShaderPass env
          (stageSrc (effVersionBody v src).1 Stage.vertex (effVersionBody v src).2)
          (stageSrc (effVersionBody v src).1 Stage.fragment (effVersionBody v src).2)
          path P := by
  simp only [addShaderSrc] at h
  split at h
  · simp at h
  · split at h
    · simp at h
    · split at h
      · simp at h
      · injection h with h1
        exact h1.symm

/-- The parameter resolution loop equals filtering the parameter list to
the names present as uniforms and mapping each kept pair to its location
and value. -/
theorem resolveParams_eq_filterMap (u : String → Int) (P : List (String × Rat)) :
    resolveParams u P
      = (P.filter (fun q => u q.1 != -1)).map (fun q => (u q.1, q.2)) := by
  induction P with
  | nil => rfl
  | cons p ps ih =>
    simp only [resolveParams, List.filter_cons]
    cases hb : (u p.1 != -1) <;> simp [hb, ih]

/-! ## Bounds and fuel adequacy for the pattern scans -/

/-- Dropping a while prefix never lengthens the text. -/
theorem dropWhile_length_le (p : Char → Bool) (cs : List Char) :
    (cs.dropWhile p).length ≤ cs.length :=
  (List.dropWhile_sublist (l := cs) p).length_le

/-- Dropping a non empty while prefix strictly shortens the text. -/
theorem dropWhile_length_lt (p : Char → Bool) (cs : List Char)
    (h : cs.takeWhile p ≠ []) : (cs.dropWhile p).length < cs.length := by
  have hlen : (cs.takeWhile p).length + (cs.dropWhile p).length = cs.length := by
    rw [← List.length_append, List.takeWhile_append_dropWhile]
  have hpos : 0 < (cs.takeWhile p).length := List.length_pos.mpr h
  omega

/-- A consumed literal never lengthens the text. -/
theorem dropLit_length : ∀ (ps cs r : List Char), dropLit ps cs = some r → r.length ≤ cs.length := by
  intro ps
  induction ps with
  | nil =>
    intro cs r h
    simp only [dropLit, Option.some.injEq] at h
    rw [← h]
  | cons p ps ih =>
    intro cs r h
    cases cs with
    | nil => simp [dropLit] at h
    | cons c cs' =>
      simp only [dropLit] at h
      split at h
      · exact Nat.le_succ_of_le (ih cs' r h)
      · simp at h

/-- Consuming the mandatory whitespace run strictly shortens the text. -/
theorem dropWs1N_length : ∀ {cs r : List Char}, dropWs1N cs = some r → r.length < cs.length := by
  intro cs r h
  cases cs with
  | nil => simp [dropWs1N] at h
  | cons c cs' =>
    simp only [dropWs1N] at h
    split at h
    · simp only [Option.some.injEq] at h
      rw [← h]
      exact Nat.lt_succ_of_le (dropWhile_length_le wsCharN cs')
    · simp at h

/-- A numeric token never lengthens the text. -/
theorem numTok_length : ∀ {cs : List Char} {t : String} {r : List Char},
    numTok cs = some (t, r) → r.length ≤ cs.length := by
  intro cs t r h
  unfold numTok at h
  split at h
  · rename_i rest
    split at h
    · simp at h
    · simp only [Option.some.injEq, Prod.mk.injEq] at h
      rw [← h.2]
      exact Nat.le_succ_of_le (dropWhile_length_le numChar rest)
  · split at h
    · simp at h
    · simp only [Option.some.injEq, Prod.mk.injEq] at h
      rw [← h.2]
      exact dropWhile_length_le numChar cs

/-- The lazy trailing piece consumes at least its newline. -/
theorem consumeToNl_length : ∀ {cs r : List Char}, consumeToNl cs = some r → r.length < cs.length := by
  intro cs
  induction cs with
  | nil => intro r h; simp [consumeToNl] at h
  | cons c cs' ih =>
    intro r h
    simp only [consumeToNl] at h
    split at h
    · simp only [Option.some.injEq] at h
      rw [← h]
      exact Nat.lt_succ_self cs'.length
    · exact Nat.lt_succ_of_lt (ih h)

/-- The step group strictly shortens the text when it matches. -/
theorem stepTryN_length : ∀ {cs : List Char} {t : String} {r : List Char},
    stepTryN cs = some (t, r) → r.length < cs.length := by
  intro cs t r h
  unfold stepTryN at h
  cases h1 : dropWs1N cs with
  | none => simp only [h1] at h; simp at h
  | some r1 =>
    simp only [h1] at h
    exact Nat.lt_of_le_of_lt (numTok_length h) (dropWs1N_length h1)

/-- The pattern tail strictly shortens the text when it matches. -/
theorem tailParse_length : ∀ {cs : List Char} {ns : String × String × String × Option String}
    {rest : List Char}, tailParse cs = some (ns, rest) → rest.length < cs.length := by
  intro cs ns rest h
  unfold tailParse at h
  cases h1 : dropWs1N cs with
  | none => simp only [h1] at h; simp at h
  | some r1 =>
    simp only [h1] at h
    cases h2 : numTok r1 with
    | none => simp only [h2] at h; simp at h
    | some p1 =>
      obtain ⟨n1, r2⟩ := p1
      simp only [h2] at h
      cases h3 : dropWs1N r2 with
      | none => simp only [h3] at h; simp at h
      | some r3 =>
        simp only [h3] at h
        cases h4 : numTok r3 with
        | none => simp only [h4] at h; simp at h
        | some p2 =>
          obtain ⟨n2, r4⟩ := p2
          simp only [h4] at h
          cases h5 : dropWs1N r4 with
          | none => simp only [h5] at h; simp at h
          | some r5 =>
            simp only [h5] at h
            cases h6 : numTok r5 with
            | none => simp only [h6] at h; simp at h
            | some p3 =>
              obtain ⟨n3, r6⟩ := p3
              simp only [h6] at h
              have hb1 := dropWs1N_length h1
              have hb2 := numTok_length h2
              have hb3 := dropWs1N_length h3
              have hb4 := numTok_length h4
              have hb5 := dropWs1N_length h5
              have hb6 := numTok_length h6
              cases h7 : stepTryN r6 with
              | none =>
                simp only [h7] at h
                cases h8 : consumeToNl r6 with
                | none => simp only [h8] at h; simp at h
                | some r8 =>
                  simp only [h8] at h
                  simp only [Option.some.injEq, Prod.mk.injEq] at h
                  have hb8 := consumeToNl_length h8
                  have hr : rest = r8 := h.2.symm
                  rw [hr]
                  omega
              | some p4 =>
                obtain ⟨n4, r7⟩ := p4
                simp only [h7] at h
                have hb7 := stepTryN_length h7
                cases h8 : consumeToNl r7 with
                | some r8 =>
                  simp only [h8] at h
                  simp only [Option.some.injEq, Prod.mk.injEq] at h
                  have hb8 := consumeToNl_length h8
                  have hr : rest = r8 := h.2.symm
                  rw [hr]
                  omega
                | none =>
                  simp only [h8] at h
                  cases h9 : consumeToNl r6 with
                  | none => simp only [h9] at h; simp at h
                  | some r8 =>
                    simp only [h9] at h
                    simp only [Option.some.injEq, Prod.mk.injEq] at h
                    have hb9 := consumeToNl_length h9
                    have hr : rest = r8 := h.2.symm
                    rw [hr]
                    omega

/-- Every candidate description split lies strictly inside the text. -/
theorem quoteSplitsNl_length : ∀ {cs d a : List Char},
    (d, a) ∈ quoteSplitsNl cs → a.length < cs.length := by
  intro cs
  induction cs with
  | nil => intro d a h; simp [quoteSplitsNl] at h
  | cons c cs' ih =>
    intro d a h
    simp only [quoteSplitsNl] at h
    split at h
    · simp at h
    · split at h
      · rcases List.mem_cons.mp h with heq | hmem
        · injection heq with e1 e2
          rw [e2]
          exact Nat.lt_succ_self cs'.length
        · simp only [List.mem_map] at hmem
          obtain ⟨⟨q1, q2⟩, hq, heq2⟩ := hmem
          injection heq2 with e1 e2
          rw [← e2]
          exact Nat.lt_succ_of_lt (ih hq)
      · simp only [List.mem_map] at h
        obtain ⟨⟨q1, q2⟩, hq, heq2⟩ := h
        injection heq2 with e1 e2
        rw [← e2]
        exact Nat.lt_succ_of_lt (ih hq)

/-- The chosen description candidate bounds the rest of a successful
match. -/
theorem descTry_length : ∀ (cands : List (List Char × List Char)) (L : Nat),
    (∀ q ∈ cands, (q.2 : List Char).length < L) →
    ∀ {d : List Char} {ns : String × String × String × Option String} {rest : List Char},
    descTry cands = some (d, ns, rest) → rest.length < L := by
  intro cands
  induction cands with
  | nil => intro L hc d ns rest h; simp [descTry] at h
  | cons q t ih =>
    intro L hc d ns rest h
    obtain ⟨dc, ac⟩ := q
    simp only [descTry] at h
    split at h
    · exact ih L (fun q2 hq2 => hc q2 (List.mem_cons_of_mem _ hq2)) h
    · cases h8 : tailParse ac with
      | none =>
        simp only [h8] at h
        exact ih L (fun q2 hq2 => hc q2 (List.mem_cons_of_mem _ hq2)) h
      | some pr =>
        obtain ⟨ns2, rest2⟩ := pr
        simp only [h8] at h
        simp only [Option.some.injEq, Prod.mk.injEq] at h
        have hr : rest = rest2 := h.2.2.symm
        rw [hr]
        have hac : ac.length < L := hc (dc, ac) (List.mem_cons_self _ _)
        exact Nat.lt_trans (tailParse_length h8) hac

/-- A pragma match strictly shortens the text. -/
theorem pragmaTry_length : ∀ {cs : List Char} {p : PragmaCapture × List Char},
    pragmaTry cs = some p → p.2.length < cs.length := by
  intro cs p h
  unfold pragmaTry at h
  cases h1 : dropLit "#pragma".data (cs.dropWhile wsCharN) with
  | none => simp only [h1] at h; simp at h
  | some r1 =>
    simp only [h1] at h
    cases h2 : dropWs1N r1 with
    | none => simp only [h2] at h; simp at h
    | some r2 =>
      simp only [h2] at h
      cases h3 : dropLit "parameter".data r2 with
      | none => simp only [h3] at h; simp at h
      | some r3 =>
        simp only [h3] at h
        cases h4 : dropWs1N r3 with
        | none => simp only [h4] at h; simp at h
        | some r4 =>
          simp only [h4] at h
          split at h
          · simp at h
          · cases h5 : dropWs1N (r4.dropWhile wordChar) with
            | none => simp only [h5] at h; simp at h
            | some r6 =>
              simp only [h5] at h
              cases h6 : dropLit ['"'] r6 with
              | none => simp only [h6] at h; simp at h
              | some r7 =>
                simp only [h6] at h
                cases h7 : descTry ((quoteSplitsNl r7).reverse) with
                | none => simp only [h7] at h; simp at h
                | some dnr =>
                  obtain ⟨d, ns, rest⟩ := dnr
                  simp only [h7] at h
                  simp only [Option.some.injEq] at h
                  have hrest : p.2 = rest := by rw [← h]
                  rw [hrest]
                  have hc1 : rest.length < r7.length := by
                    refine descTry_length _ r7.length ?_ h7
                    intro q hq
                    exact quoteSplitsNl_length (List.mem_reverse.mp hq)
                  have hb0 := dropWhile_length_le wsCharN cs
                  have hb1 := dropLit_length _ _ _ h1
                  have hb2 := dropWs1N_length h2
                  have hb3 := dropLit_length _ _ _ h3
                  have hb4 := dropWs1N_length h4
                  have hb5 := dropWs1N_length h5
                  have hb6 := dropWhile_length_le wordChar r4
                  have hb7 := dropLit_length _ _ _ h6
                  omega

/-- A version match strictly shortens the text. -/
theorem versionTry_length : ∀ {cs : List Char} {p : String × List Char},
    versionTry cs = some p → p.2.length < cs.length := by
  intro cs p h
  unfold versionTry at h
  cases h1 : dropLit "#version".data (cs.dropWhile wsCharN) with
  | none => simp only [h1] at h; simp at h
  | some r1 =>
    simp only [h1] at h
    split at h
    · simp at h
    · rename_i hw1
      split at h
      · simp at h
      · rename_i hw2
        simp only [Option.some.injEq] at h
        have hrest : p.2 = (r1.dropWhile wsCharN).dropWhile wordChar := by rw [← h]
        rw [hrest]
        have hb0 := dropWhile_length_le wsCharN cs
        have hb1 := dropLit_length _ _ _ h1
        have hb2 : (r1.dropWhile wsCharN).length < r1.length := by
          refine dropWhile_length_lt wsCharN r1 ?_
          simpa using hw1
        have hb3 : ((r1.dropWhile wsCharN).dropWhile wordChar).length
            < (r1.dropWhile wsCharN).length := by
          refine dropWhile_length_lt wordChar _ ?_
          simpa using hw2
        omega

/-- The pragma removal scan does not depend on the fuel once the fuel
reaches the length of the text. -/
theorem removePragmasAux_fuel : ∀ (n m : Nat) (b : Bool) (cs : List Char),
    cs.length ≤ n → cs.length ≤ m →
    removePragmasAux n b cs = removePragmasAux m b cs := by
  intro n
  induction n with
  | zero =>
    intro m b cs hn hm
    have hcs : cs = [] := List.length_eq_zero.mp (Nat.le_zero.mp hn)
    subst hcs
    cases m with
    | zero => rfl
    | succ m2 => cases b <;> rfl
  | succ n2 ih =>
    intro m b cs hn hm
    cases cs with
    | nil =>
      cases m with
      | zero => cases b <;> rfl
      | succ m2 => cases b <;> rfl
    | cons c cs' =>
      obtain ⟨m2, rfl⟩ : ∃ m2, m = m2 + 1 := by
        cases m with
        | zero => simp at hm
        | succ m2 => exact ⟨m2, rfl⟩
      cases hp : cond b (pragmaTry (c :: cs')) none with
      | some p =>
        have hlt : p.2.length < (c :: cs').length := by
          cases b with
          | false => simp at hp
          | true => exact pragmaTry_length (by simpa using hp)
        simp only [removePragmasAux, hp]
        refine ih m2 true p.2 ?_ ?_
        · simp only [List.length_cons] at hn hlt; omega
        · simp only [List.length_cons] at hm hlt; omega
      | none =>
        simp only [removePragmasAux, hp]
        have hrec := ih m2 (c == '\n') cs'
          (by simp only [List.length_cons] at hn; omega)
          (by simp only [List.length_cons] at hm; omega)
        rw [hrec]

/-- The pragma collection scan does not depend on the fuel once the fuel
reaches the length of the text. -/
theorem collectPragmasAux_fuel : ∀ (n m : Nat) (b : Bool) (cs : List Char),
    cs.length ≤ n → cs.length ≤ m →
    collectPragmasAux n b cs = collectPragmasAux m b cs := by
  intro n
  induction n with
  | zero =>
    intro m b cs hn hm
    have hcs : cs = [] := List.length_eq_zero.mp (Nat.le_zero.mp hn)
    subst hcs
    cases m with
    | zero => rfl
    | succ m2 => cases b <;> rfl
  | succ n2 ih =>
    intro m b cs hn hm
    cases cs with
    | nil =>
      cases m with
      | zero => cases b <;> rfl
      | succ m2 => cases b <;> rfl
    | cons c cs' =>
      obtain ⟨m2, rfl⟩ : ∃ m2, m = m2 + 1 := by
        cases m with
        | zero => simp at hm
        | succ m2 => exact ⟨m2, rfl⟩
      cases hp : cond b (pragmaTry (c :: cs')) none with
      | some p =>
        have hlt : p.2.length < (c :: cs').length := by
          cases b with
          | false => simp at hp
          | true => exact pragmaTry_length (by simpa using hp)
        simp only [collectPragmasAux, hp]
        have hrec := ih m2 true p.2
          (by simp only [List.length_cons] at hn hlt; omega)
          (by simp only [List.length_cons] at hm hlt; omega)
        rw [hrec]
      | none =>
        simp only [collectPragmasAux, hp]
        exact ih m2 (c == '\n') cs'
          (by simp only [List.length_cons] at hn; omega)
          (by simp only [List.length_cons] at hm; omega)

/-- The version removal scan does not depend on the fuel once the fuel
reaches the length of the text. -/
theorem removeVersionsAux_fuel : ∀ (n m : Nat) (b : Bool) (cs : List Char),
    cs.length ≤ n → cs.length ≤ m →
    removeVersionsAux n b cs = removeVersionsAux m b cs := by
  intro n
  induction n with
  | zero =>
    intro m b cs hn hm
    have hcs : cs = [] := List.length_eq_zero.mp (Nat.le_zero.mp hn)
    subst hcs
    cases m with
    | zero => rfl
    | succ m2 => cases b <;> rfl
  | succ n2 ih =>
    intro m b cs hn hm
    cases cs with
    | nil =>
      cases m with
      | zero => cases b <;> rfl
      | succ m2 => cases b <;> rfl
    | cons c cs' =>
      obtain ⟨m2, rfl⟩ : ∃ m2, m = m2 + 1 := by
        cases m with
        | zero => simp at hm
        | succ m2 => exact ⟨m2, rfl⟩
      cases hp : cond b (versionTry (c :: cs')) none with
      | some p =>
        have hlt : p.2.length < (c :: cs').length := by
          cases b with
          | false => simp at hp
          | true => exact versionTry_length (by simpa using hp)
        simp only [removeVersionsAux, hp]
        refine ih m2 false p.2 ?_ ?_
        · simp only [List.length_cons] at hn hlt; omega
        · simp only [List.length_cons] at hm hlt; omega
      | none =>
        simp only [removeVersionsAux, hp]
        have hrec := ih m2 (c == '\n') cs'
          (by simp only [List.length_cons] at hn; omega)
          (by simp only [List.length_cons] at hm; omega)
        rw [hrec]

/-! ## Claim C1 -/

/-- C1 counterexample: with a two entry preset whose first sub shader
builds successfully and whose second sub resource is missing,
construction with load-from-config yields a pipeline of TWO passes (the
retained partially built pass followed by the default pass), not exactly
one default pass as the claim states: the catch branch never discards
the passes already appended. -/
theorem C1_counterexample :
    (OpenGLOptions.init envC1 gC1 true "v").m_shaders.length = 2
    ∧ (OpenGLOptions.init envC1 gC1 true "v").m_shaders = [passA1, defaultPassOf envC1 "v"]
    ∧ passA1.m_path = "a.glsl" :=
  ⟨by rfl, by rfl, by rfl⟩

/-- C1 (amended): when construction with load-from-config attempts a non
empty persisted shader path and the attempt throws, no exception escapes
and the constructor appends one default pass to whatever passes were
already built, so the pipeline equals the partially built passes
followed by the default pass; when the failure happens before any pass
is built (for example the resource is missing), the pipeline is exactly
the one default pass. -/
theorem C1_fallback_appends_default (env : Env) (g : Globals) (v : String)
    (s : List OpenGLShaderPass)
    (h1 : g.video_shader ≠ "")
    (h2 : addShaderPath env v g.video_shader [] = AddResult.err s) :
    (OpenGLOptions.init env g true v).m_shaders = s ++ [defaultPassOf env v]
    ∧ (env.readFile g.video_shader = none → s = []) := by
  constructor
  · rw [init_shaders_eq]
    unfold loadShaders
    rw [if_neg h1, h2]
    rfl
  · intro hr
    unfold addShaderPath at h2
    rw [hr] at h2
    injection h2 with h3
    exact h3.symm

/-- C1 witness: the amended statement evaluated at the concrete two
entry preset environment. -/
theorem C1_witness :
    gC1.video_shader ≠ ""
    ∧ addShaderPath envC1 "v" gC1.video_shader [] = AddResult.err [passA1]
    ∧ ((OpenGLOptions.init envC1 gC1 true "v").m_shaders = [passA1] ++ [defaultPassOf envC1 "v"]
       ∧ (envC1.readFile gC1.video_shader = none → [passA1] = ([] : List OpenGLShaderPass))) :=
  ⟨by decide, by rfl,
   C1_fallback_appends_default envC1 gC1 "v" [passA1] (by decide) (by rfl)⟩

/-! ## Claim C2 -/

/-- C2 counterexample: a resource whose text is a top level JSON array
parses successfully, so the raw shader fallback is NOT taken and the
preset branch iterates an empty list: the call yields zero passes, not
the exactly one raw PassDefinition the claim states. -/
theorem C2_counterexample :
    envC2.readFile "arr.json" = some "[]"
    ∧ envC2.parseJson "[]" = some (QJson.arr [])
    ∧ addShaderPath envC2 "v" "arr.json" [] = AddResult.ok [] :=
  ⟨by rfl, by rfl, by rfl⟩

/-- C2 (amended): the whole-text raw shader interpretation (exactly one
pass attempt carrying the original resource path and an empty parameter
list) happens exactly when the document fails to parse; a successfully
parsed document always takes the preset branch, so a top level array, or
an object without a "shaders" key, yields zero passes and no raw
interpretation. -/
theorem C2_format_detection :
    (∀ (env : Env) (v path bytes : String),
        env.readFile path = some bytes → env.parseJson bytes = none →
        addShaderPath env v path [] = addShaderSrcApp env v bytes path [] [])
    ∧ (∀ (env : Env) (v path bytes : String) (p : OpenGLShaderPass),
        env.readFile path = some bytes → env.parseJson bytes = none →
        addShaderSrc env v bytes path [] = Except.ok p →
        addShaderPath env v path [] = AddResult.ok [p]
        ∧ p.m_path = path ∧ p.m_parameters = [])
    ∧ (∀ (env : Env) (v path bytes : String) (xs : List QJson),
        env.readFile path = some bytes → env.parseJson bytes = some (QJson.arr xs) →
        addShaderPath env v path [] = AddResult.ok [])
    ∧ (∀ (env : Env) (v path bytes : String) (fs : List (String × QJson)),
        env.readFile path = some bytes → env.parseJson bytes = some (QJson.obj fs) →
        QJson.getKey (QJson.obj fs) "shaders" = QJson.undef →
        addShaderPath env v path [] = AddResult.ok []) := by
  refine ⟨?_, ?_, ?_, ?_⟩
  · intro env v path bytes h1 h2
    simp only [addShaderPath, h1, h2]
  · intro env v path bytes p h1 h2 h3
    refine ⟨?_, ?_, ?_⟩
    · simp only [addShaderPath, h1, h2, addShaderSrcApp, h3, List.nil_append]
    · have hp := addShaderSrc_ok env v bytes path [] p h3
      subst hp
      rfl
    · have hp := addShaderSrc_ok env v bytes path [] p h3
      subst hp
      rfl
  · intro env v path bytes xs h1 h2
    simp only [addShaderPath, h1, h2]
    rfl
  · intro env v path bytes fs h1 h2 hk
    simp only [addShaderPath, h1, h2, hk]
    rfl

/-- C2 witness: the amended statement evaluated at concrete
environments, one with a parse failure and one with a top level array. -/
theorem C2_witness :
    addShaderPath envC1 "v" "a.glsl" [] = addShaderSrcApp envC1 "v" "x" "a.glsl" [] []
    ∧ addShaderPath envC2 "v" "arr.json" [] = AddResult.ok [] :=
  ⟨C2_format_detection.1 envC1 "v" "a.glsl" "x" (by rfl) (by rfl),
   C2_format_detection.2.2.1 envC2 "v" "arr.json" "[]" [] (by rfl) (by rfl)⟩

/-! ## Claim C3 -/

/-- C3 counterexample: a source with two version directive lines.  The
first directive is captured as the version line, but removal strips the
second matching directive as well, so the compiled body no longer
contains the later directive, contrary to the claim that later version
lines remain present. -/
theorem C3_counterexample :
    (effVersionBody "dv" src3).1 = "#version 110"
    ∧ (effVersionBody "dv" src3).2 = "\nA\n\nB"
    ∧ (effVersionBody "dv" src3).2 ≠ "\nA\n#version 120\nB" :=
  ⟨by decide, by decide, by decide⟩

/-- C3 (amended): the version extraction captures only the first
matching directive as the effective version line, but the removal
strips EVERY match of the version pattern, not only the first.  A match
starts at a line start, consumes the leading whitespace (whole blank
lines included) and the directive, whose inner whitespace may itself
cross a newline, and leaves the rest of the matched line in place; the
scan resumes in the middle of that line, and characters outside every
match are kept. -/
theorem C3_version_extraction :
    (∀ (cs : List Char) (cap : String) (rest : List Char),
        versionTry cs = some (cap, rest) →
        removeVersionsFrom true cs = removeVersionsFrom false rest
        ∧ findVersionAux true cs = some cap)
    ∧ (∀ (ch : Char) (cs : List Char),
        versionTry (ch :: cs) = none →
        removeVersionsFrom true (ch :: cs) = ch :: removeVersionsFrom (ch == '\n') cs
        ∧ findVersionAux true (ch :: cs) = findVersionAux (ch == '\n') cs)
    ∧ (∀ (ch : Char) (cs : List Char),
        removeVersionsFrom false (ch :: cs) = ch :: removeVersionsFrom (ch == '\n') cs
        ∧ findVersionAux false (ch :: cs) = findVersionAux (ch == '\n') cs)
    ∧ versionTry ("#version\n150 core".data) = some ("#version\n150", " core".data) := by
  refine ⟨?_, ?_, ?_, by decide⟩
  · intro cs cap rest h
    cases cs with
    | nil => rw [show versionTry ([] : List Char) = none from rfl] at h; cases h
    | cons c0 cs' =>
      have hlt : rest.length < (c0 :: cs').length := by
        simpa using versionTry_length (p := (cap, rest)) h
      constructor
      · show removeVersionsAux (c0 :: cs').length true (c0 :: cs') = _
        simp only [List.length_cons, removeVersionsAux, Bool.cond_true, h]
        exact removeVersionsAux_fuel cs'.length rest.length false rest
          (by simp only [List.length_cons] at hlt; omega) (Nat.le_refl _)
      · simp only [findVersionAux, Bool.cond_true, h]
  · intro ch cs h
    constructor
    · show removeVersionsAux (ch :: cs).length true (ch :: cs) = _
      simp only [List.length_cons, removeVersionsAux, Bool.cond_true, h]
      rfl
    · simp only [findVersionAux, Bool.cond_true, h]
  · intro ch cs
    constructor
    · show removeVersionsAux (ch :: cs).length false (ch :: cs) = _
      simp only [List.length_cons, removeVersionsAux, Bool.cond_false]
      rfl
    · simp only [findVersionAux, Bool.cond_false]

/-- C3 witness: the amended statement evaluated on a matching directive
line and on a plain line. -/
theorem C3_witness :
    (removeVersionsFrom true ("#version 110\nB".data) = removeVersionsFrom false ("\nB".data)
     ∧ findVersionAux true ("#version 110\nB".data) = some "#version 110")
    ∧ (removeVersionsFrom true ('B' :: "".data)
         = 'B' :: removeVersionsFrom (('B' : Char) == '\n') ("".data)
       ∧ findVersionAux true ('B' :: "".data) = findVersionAux (('B' : Char) == '\n') ("".data)) :=
  ⟨C3_version_extraction.1 ("#version 110\nB".data) "#version 110" ("\nB".data) (by decide),
   C3_version_extraction.2.1 'B' ("".data) (by decide)⟩

/-! ## Claim C4 -/

/-- C4 counterexample: constructing with loadConfig false returns before
any shader is added, so the pipeline is empty at the moment the
constructor returns, contrary to the claim that at least one pass exists
for every way of finishing construction. -/
theorem C4_counterexample :
    (OpenGLOptions.init envTriv gTriv false "v").m_shaders = [] := by
  rfl

/-- C4 (amended): with loadConfig false the pipeline is empty at return.
With loadConfig true, an empty persisted path yields exactly the default
pass and a failing load yields a non empty pipeline ending in the
default pass; but a successful load yields exactly the loaded passes, so
a preset that successfully yields zero passes leaves the pipeline
empty even with loadConfig true. -/
theorem C4_pipeline_nonempty :
    (∀ (env : Env) (g : Globals) (v : String),
        (OpenGLOptions.init env g false v).m_shaders = [])
    ∧ (∀ (env : Env) (g : Globals) (v : String),
        g.video_shader = "" →
        (OpenGLOptions.init env g true v).m_shaders = [defaultPassOf env v])
    ∧ (∀ (env : Env) (g : Globals) (v : String) (s : List OpenGLShaderPass),
        g.video_shader ≠ "" → addShaderPath env v g.video_shader [] = AddResult.err s →
        (OpenGLOptions.init env g true v).m_shaders ≠ [])
    ∧ (∀ (env : Env) (g : Globals) (v : String) (s : List OpenGLShaderPass),
        g.video_shader ≠ "" → addShaderPath env v g.video_shader [] = AddResult.ok s →
        (OpenGLOptions.init env g true v).m_shaders = s) := by
  refine ⟨fun env g v => rfl, ?_, ?_, ?_⟩
  · intro env g v h
    rw [init_shaders_eq]
    unfold loadShaders
    rw [if_pos h]
    rfl
  · intro env g v s h1 h2
    rw [init_shaders_eq]
    unfold loadShaders
    rw [if_neg h1, h2]
    simp [addDefaultShader]
  · intro env g v s h1 h2
    rw [init_shaders_eq]
    unfold loadShaders
    rw [if_neg h1, h2]

/-- C4 witness: the amended statement evaluated at concrete inputs,
including the successful empty preset that leaves the pipeline empty. -/
theorem C4_witness :
    (OpenGLOptions.init envTriv gTriv true "v").m_shaders = [defaultPassOf envTriv "v"]
    ∧ (OpenGLOptions.init envC1 gC1 true "v").m_shaders ≠ []
    ∧ (OpenGLOptions.init envC2 gArr true "v").m_shaders = [] :=
  ⟨C4_pipeline_nonempty.2.1 envTriv gTriv "v" (by rfl),
   C4_pipeline_nonempty.2.2.1 envC1 gC1 "v" [passA1] (by decide) (by rfl),
   C4_pipeline_nonempty.2.2.2 envC2 gArr "v" [] (by decide) (by rfl)⟩

/-! ## Claim C5 -/

/-- C5 counterexample: the generated header does not follow the order
the claim states.  The code places the fixed parameter uniform macro
line BEFORE the stage identifying macro line, while the claim (and the
spec) list the stage macro third and the parameter uniform macro
fourth. -/
theorem C5_counterexample :
    stageHeaderList "#version 130" Stage.vertex ≠ specHeaderC5 "#version 130" Stage.vertex
    ∧ stageHeaderList "#version 130" Stage.vertex
      = ["#version 130", extLine, puLine, "#define VERTEX", "#line 1", ""] :=
  ⟨by decide, by rfl⟩

/-- C5 (amended): the per stage header consists of exactly these lines
in this order: the effective version line, the fixed extension enable
directive, the fixed parameter uniform enable macro definition, the
stage identifying macro definition (VERTEX versus FRAGMENT), the line
number reset directive, and the empty separator element whose join puts
a newline directly before the body.  The vertex and fragment headers
differ only at the stage macro position, and both stage sources append
the identical body to the joined header. -/
theorem C5_header_layout :
    (∀ vl : String,
        stageHeaderList vl Stage.vertex
          = [vl, extLine, puLine, "#define VERTEX", "#line 1", ""]
        ∧ stageHeaderList vl Stage.fragment
          = [vl, extLine, puLine, "#define FRAGMENT", "#line 1", ""])
    ∧ (∀ (vl : String) (i : Nat), i ≠ 3 →
        (stageHeaderList vl Stage.vertex).get? i = (stageHeaderList vl Stage.fragment).get? i)
    ∧ (∀ (vl body : String) (st : Stage),
        stageSrc vl st body = joinLines (stageHeaderList vl st) ++ body)
    ∧ (∀ (env : Env) (v src path : String) (P : List (String × Rat)) (p : OpenGLShaderPass),
        addShaderSrc env v src path P = Except.ok p →
        p.vsrc = stageSrc (effVersionBody v src).1 Stage.vertex (effVersionBody v src).2
        ∧ p.fsrc = stageSrc (effVersionBody v src).1 Stage.fragment (effVersionBody v src).2) := by
  refine ⟨fun vl => ⟨rfl, rfl⟩, ?_, fun vl body st => rfl, ?_⟩
  · intro vl i hi
    exact match i, hi with
    | 0, _ => rfl
    | 1, _ => rfl
    | 2, _ => rfl
    | 3, h => absurd rfl h
    | 4, _ => rfl
    | 5, _ => rfl
    | (n + 6), _ => rfl
  · intro env v src path P p h
    have hp := addShaderSrc_ok env v src path P p h
    subst hp
    exact ⟨rfl, rfl⟩

/-- C5 witness: the amended statement evaluated at a concrete version
line and at the pass assembled by the concrete C7 environment. -/
theorem C5_witness :
    (stageHeaderList "v" Stage.vertex).get? 0 = (stageHeaderList "v" Stage.fragment).get? 0
    ∧ (passU.vsrc = stageSrc (effVersionBody "v" "b").1 Stage.vertex (effVersionBody "v" "b").2
       ∧ passU.fsrc = stageSrc (effVersionBody "v" "b").1 Stage.fragment (effVersionBody "v" "b").2) :=
  ⟨C5_header_layout.2.1 "v" 0 (by decide),
   C5_header_layout.2.2.2 envU "v" "b" "p" [("x", 1), ("y", 2)] passU (by rfl)⟩

/-! ## Claim C6 -/

/-- C6 counterexample: the source is a whitespace-only line, a matching
pragma line, a body line, and a matching pragma line as the final
segment not terminated by a newline.  The claim predicts that exactly
the two matching lines are removed, leaving the whitespace line and the
body line.  Instead the leading whitespace of the pattern swallows the
whitespace line into the first match, and the final matching segment is
left in place because the pattern demands a terminating newline; the
last conjunct shows the greedy optional step group of a match consuming
a following line that holds just a number. -/
theorem C6_counterexample :
    String.mk (removePragmas src6.data) = "body\n" ++ pragBLine
    ∧ String.mk (removePragmas src6.data) ≠ "  \nbody\n"
    ∧ collectDecls src6.data
      = [{ name := "a", description := "d", initial := 1, minimum := 0, maximum := 2, step := none }]
    ∧ removePragmas ((pragALine ++ "\n3\n").data) = [] :=
  ⟨by decide, by decide, by decide, by decide⟩

/-- C6 (amended): a match of the pragma pattern starts at a line start;
it may absorb the whitespace-only lines directly preceding the
directive (the leading whitespace of the pattern crosses newlines), its
token separators may cross a newline, and its greedy optional step
group may consume a newline and a number on the following line; it ends
by consuming the first newline at or after its last token, so a
matching final segment not terminated by a newline never matches and is
kept.  Every match is removed whole and yields one declaration whose
fields equal the captured groups with the numeric fields parsed as
numbers; every character outside every match is kept, in order. -/
theorem C6_pragma_extraction :
    (∀ (cs : List Char) (c : PragmaCapture) (rest : List Char),
        pragmaTry cs = some (c, rest) →
        removePragmasFrom true cs = removePragmasFrom true rest
        ∧ collectPragmasFrom true cs = c :: collectPragmasFrom true rest)
    ∧ (∀ (ch : Char) (cs : List Char),
        pragmaTry (ch :: cs) = none →
        removePragmasFrom true (ch :: cs) = ch :: removePragmasFrom (ch == '\n') cs
        ∧ collectPragmasFrom true (ch :: cs) = collectPragmasFrom (ch == '\n') cs)
    ∧ (∀ (ch : Char) (cs : List Char),
        removePragmasFrom false (ch :: cs) = ch :: removePragmasFrom (ch == '\n') cs
        ∧ collectPragmasFrom false (ch :: cs) = collectPragmasFrom (ch == '\n') cs)
    ∧ (∀ c : PragmaCapture,
        mkDecl c = ⟨c.name, c.desc, toFloatQ c.initial, toFloatQ c.minv, toFloatQ c.maxv,
          c.stepv.map toFloatQ⟩)
    ∧ pragmaTry ((pragALine ++ "\n3\nX").data)
        = some (⟨"a", "d", "1", "0", "2", some "3"⟩, "X".data)
    ∧ pragmaTry pragBLine.data = none := by
  refine ⟨?_, ?_, ?_, fun c => rfl, by decide, by decide⟩
  · intro cs c rest h
    cases cs with
    | nil => rw [show pragmaTry ([] : List Char) = none from rfl] at h; cases h
    | cons c0 cs' =>
      have hlt : rest.length < (c0 :: cs').length := by
        simpa using pragmaTry_length (p := (c, rest)) h
      constructor
      · show removePragmasAux (c0 :: cs').length true (c0 :: cs') = _
        simp only [List.length_cons, removePragmasAux, Bool.cond_true, h]
        exact removePragmasAux_fuel cs'.length rest.length true rest
          (by simp only [List.length_cons] at hlt; omega) (Nat.le_refl _)
      · show collectPragmasAux (c0 :: cs').length true (c0 :: cs') = _
        simp only [List.length_cons, collectPragmasAux, Bool.cond_true, h]
        have hrec := collectPragmasAux_fuel cs'.length rest.length true rest
          (by simp only [List.length_cons] at hlt; omega) (Nat.le_refl _)
        rw [hrec]
        rfl
  · intro ch cs h
    constructor
    · show removePragmasAux (ch :: cs).length true (ch :: cs) = _
      simp only [List.length_cons, removePragmasAux, Bool.cond_true, h]
      rfl
    · show collectPragmasAux (ch :: cs).length true (ch :: cs) = _
      simp only [List.length_cons, collectPragmasAux, Bool.cond_true, h]
      rfl
  · intro ch cs
    constructor
    · show removePragmasAux (ch :: cs).length false (ch :: cs) = _
      simp only [List.length_cons, removePragmasAux, Bool.cond_false]
      rfl
    · show collectPragmasAux (ch :: cs).length false (ch :: cs) = _
      simp only [List.length_cons, collectPragmasAux, Bool.cond_false]
      rfl

/-- C6 witness: the amended statement evaluated on a matching pragma
line followed by a body line, and on a line that starts no match. -/
theorem C6_witness :
    (removePragmasFrom true ((pragALine ++ "\nX").data) = removePragmasFrom true ("X".data)
     ∧ collectPragmasFrom true ((pragALine ++ "\nX").data)
         = capA :: collectPragmasFrom true ("X".data))
    ∧ (removePragmasFrom true ('b' :: "ody".data)
         = 'b' :: removePragmasFrom (('b' : Char) == '\n') ("ody".data)
       ∧ collectPragmasFrom true ('b' :: "ody".data)
         = collectPragmasFrom (('b' : Char) == '\n') ("ody".data)) :=
  ⟨C6_pragma_extraction.1 ((pragALine ++ "\nX").data) capA ("X".data) (by decide),
   C6_pragma_extraction.2.1 'b' ("ody".data) (by decide)⟩

/-! ## Claim C7 -/

/-- C7: for every pass definition with parameter list P that assembles
and links successfully, the parameter bindings of the resulting pass are
exactly the subset of P whose names resolve to uniforms in the linked
program (a name resolving to the absent location is silently dropped),
each mapped to its location and value, in the same relative order as P. -/
theorem C7_parameter_binding (env : Env) (v src path : String) (P : List (String × Rat))
    (p : OpenGLShaderPass) (h : addShaderSrc env v src path P = Except.ok p) :
    p.m_parameters
      = (P.filter (fun q => env.uniformLocation p.vsrc p.fsrc q.1 != -1)).map
          (fun q => (env.uniformLocation p.vsrc p.fsrc q.1, q.2)) := by
  have hp := addShaderSrc_ok env v src path P p h
  subst hp
  simp only [mkShaderPass]
  exact resolveParams_eq_filterMap _ P

/-- C7 witness: the property evaluated at a concrete environment in
which only the uniform named x exists; the parameter named y is
silently dropped and the kept pair is the location and value of x. -/
theorem C7_witness :
    passU.m_parameters
      = (([("x", (1 : Rat)), ("y", 2)]).filter
          (fun q => envU.uniformLocation passU.vsrc passU.fsrc q.1 != -1)).map
          (fun q => (envU.uniformLocation passU.vsrc passU.fsrc q.1, q.2))
    ∧ passU.m_parameters = [(3, 1)] :=
  ⟨C7_parameter_binding envU "v" "b" "p" [("x", 1), ("y", 2)] passU (by rfl), by rfl⟩

/-! ## Claim C8 -/

/-- C8 counterexample: a reachable state with TargetFramerate behavior
and framerate minus one (the setters accept any integer).  Saving writes
the framerate field as minus one, and re-construction maps that sentinel
back to SyncWithVideo, so the render behavior does not round-trip. -/
theorem C8_counterexample :
    OpenGLOptions.save opts8 gTriv = some g8val
    ∧ opts8.m_renderBehavior = RenderBehaviorType.TargetFramerate
    ∧ (OpenGLOptions.init envTriv g8val true "v").m_renderBehavior
        = RenderBehaviorType.SyncWithVideo :=
  ⟨by rfl, by rfl, by rfl⟩

/-- C8 (amended): after save succeeds, re-construction with
load-from-config always reproduces the vsync value, and its filter query
against the freshly written globals reproduces the locally stored filter
value; the render behavior and framerate are reproduced when the
behavior is TargetFramerate with a framerate other than the minus one
sentinel, while a SyncWithVideo state reloads with the SyncWithVideo
behavior and the sentinel framerate minus one (so a non sentinel stored
framerate of a SyncWithVideo state is not reproduced), and a
TargetFramerate state with the sentinel framerate reloads as
SyncWithVideo. -/
theorem C8_save_roundtrip (env : Env) (o : OpenGLOptions) (g g2 : Globals) (v : String)
    (h : OpenGLOptions.save o g = some g2) :
    (OpenGLOptions.init env g2 true v).m_vsync = o.m_vsync
    ∧ OpenGLOptions.filter (OpenGLOptions.init env g2 true v) g2 = o.m_filter
    ∧ (o.m_renderBehavior = RenderBehaviorType.TargetFramerate → o.m_framerate ≠ -1 →
        (OpenGLOptions.init env g2 true v).m_renderBehavior = RenderBehaviorType.TargetFramerate
        ∧ (OpenGLOptions.init env g2 true v).m_framerate = o.m_framerate)
    ∧ (o.m_renderBehavior = RenderBehaviorType.SyncWithVideo →
        (OpenGLOptions.init env g2 true v).m_renderBehavior = RenderBehaviorType.SyncWithVideo
        ∧ (OpenGLOptions.init env g2 true v).m_framerate = -1) := by
  cases hs : o.m_shaders with
  | nil =>
    rw [save_nil o g hs] at h
    cases h
  | cons f rest =>
    rw [save_cons o g f rest hs] at h
    injection h with hg
    subst hg
    refine ⟨?_, ?_, fun h1 h2 => ⟨?_, ?_⟩, fun h1 => ⟨?_, ?_⟩⟩
    · rw [init_vsync_eq]
      cases hb : o.m_vsync <;> simp [hb]
    · rw [filter_eq]
      cases hf : o.m_filter <;> simp [filterOfGlobal, hf]
    · rw [init_rb_eq]
      simp [h1, h2]
    · rw [init_framerate_eq]
      simp [h1]
    · rw [init_rb_eq]
      simp [h1]
    · rw [init_framerate_eq]
      simp [h1]

/-- C8 witness: the amended statement evaluated at a concrete state with
TargetFramerate behavior and framerate sixty. -/
theorem C8_witness :
    OpenGLOptions.save optsW8 gTriv = some gW8
    ∧ ((OpenGLOptions.init envTriv gW8 true "v").m_vsync = optsW8.m_vsync
       ∧ OpenGLOptions.filter (OpenGLOptions.init envTriv gW8 true "v") gW8 = optsW8.m_filter
       ∧ (optsW8.m_renderBehavior = RenderBehaviorType.TargetFramerate →
           optsW8.m_framerate ≠ -1 →
           (OpenGLOptions.init envTriv gW8 true "v").m_renderBehavior
             = RenderBehaviorType.TargetFramerate
           ∧ (OpenGLOptions.init envTriv gW8 true "v").m_framerate = optsW8.m_framerate)
       ∧ (optsW8.m_renderBehavior = RenderBehaviorType.SyncWithVideo →
           (OpenGLOptions.init envTriv gW8 true "v").m_renderBehavior
             = RenderBehaviorType.SyncWithVideo
           ∧ (OpenGLOptions.init envTriv gW8 true "v").m_framerate = -1)) :=
  ⟨by rfl, C8_save_roundtrip envTriv optsW8 gTriv gW8 "v" (by rfl)⟩

/-! ## Claim C9 -/

/-- C9: after any sequence of setter calls, every filter query returns
the value derived from the live externally governed filter method
variable at the moment of the call (Nearest exactly when it is zero),
never the locally stored field; setFilter records its value locally
without changing what the query returns; and once save writes the
external variable, the query against the written globals reflects the
stored filter value. -/
theorem C9_filter_live :
    (∀ (o : OpenGLOptions) (ops : List SetterOp) (g : Globals),
        OpenGLOptions.filter (applyOps ops o) g = filterOfGlobal g
        ∧ OpenGLOptions.filter (applyOps ops o) g = OpenGLOptions.filter o g)
    ∧ (∀ (o : OpenGLOptions) (v : FilterType) (g : Globals),
        OpenGLOptions.filter (OpenGLOptions.setFilter o v) g = OpenGLOptions.filter o g
        ∧ (OpenGLOptions.setFilter o v).m_filter = v)
    ∧ (∀ (o : OpenGLOptions) (g g2 : Globals),
        OpenGLOptions.save o g = some g2 →
        ∀ o2 : OpenGLOptions, OpenGLOptions.filter o2 g2 = o.m_filter) := by
  refine ⟨fun o ops g => ⟨rfl, rfl⟩, fun o v g => ⟨rfl, rfl⟩, fun o g g2 h o2 => ?_⟩
  cases hs : o.m_shaders with
  | nil =>
    rw [save_nil o g hs] at h
    cases h
  | cons f rest =>
    rw [save_cons o g f rest hs] at h
    injection h with hg
    subst hg
    rw [filter_eq]
    cases hf : o.m_filter <;> simp [filterOfGlobal, hf]

/-- C9 witness: the property evaluated at a concrete state, setter
sequence and globals, including the save clause at a state whose stored
filter is Linear. -/
theorem C9_witness :
    (OpenGLOptions.filter (applyOps [SetterOp.setF FilterType.Linear] opts0) gTriv
       = filterOfGlobal gTriv
     ∧ OpenGLOptions.filter (applyOps [SetterOp.setF FilterType.Linear] opts0) gTriv
       = OpenGLOptions.filter opts0 gTriv)
    ∧ OpenGLOptions.filter opts0 g8val = opts8.m_filter :=
  ⟨C9_filter_live.1 opts0 [SetterOp.setF FilterType.Linear] gTriv,
   C9_filter_live.2.2 opts8 gTriv g8val (by rfl) opts0⟩

/-! ## Claim C10 -/

/-- C10: save unconditionally takes the first element of the pipeline
list, so it reaches the invalid empty list access exactly when the
pipeline is empty; a state with an empty pipeline is reachable by
constructing with loadConfig false, and a non empty pipeline is the
precondition under which the access is valid. -/
theorem C10_save_precondition :
    (∀ (env : Env) (g : Globals) (v : String),
        (OpenGLOptions.init env g false v).m_shaders = [])
    ∧ (∀ (o : OpenGLOptions) (g : Globals),
        o.m_shaders = [] → OpenGLOptions.save o g = none)
    ∧ (∀ (o : OpenGLOptions) (g : Globals),
        o.m_shaders ≠ [] → OpenGLOptions.save o g ≠ none) := by
  refine ⟨fun env g v => rfl, fun o g h => save_nil o g h, fun o g h => ?_⟩
  cases hs : o.m_shaders with
  | nil => exact absurd hs h
  | cons f rest =>
    rw [save_cons o g f rest hs]
    simp

/-- C10 witness: the property evaluated at the aggregate constructed
without loading the configuration, at a concrete empty pipeline state
and at a concrete non empty pipeline state. -/
theorem C10_witness :
    (OpenGLOptions.init envTriv gTriv false "v").m_shaders = []
    ∧ OpenGLOptions.save opts0 gTriv = none
    ∧ OpenGLOptions.save opts8 gTriv ≠ none :=
  ⟨C10_save_precondition.1 envTriv gTriv "v",
   C10_save_precondition.2.1 opts0 gTriv (by rfl),
   C10_save_precondition.2.2 opts8 gTriv (by decide)⟩
